import Mathlib

/-!
Shallow embedding of the To-Do-List manager (Rust) core:
`src/list_items/enums.rs`, `src/list_items/structs.rs`,
`src/utils/functions.rs` and the persistence layer of `src/lib.rs`.

Modelling conventions:
* `chrono::NaiveDate` is modelled by the structure `Date` below; calendar
  validity (`from_ymd_opt`) is spelled out with month lengths and leap years,
  together with chrono's documented year range of roughly plus/minus 262000
  years.
* "the current date" (`Local::now().date_naive()`) is an explicit `today`
  parameter of every operation that reads the clock.
* `HashMap<String, T>` is modelled as an association list `List (String × T)`;
  the list order is the (unspecified) iteration order of the hash map, and
  `mapGet`/`mapInsert`/`mapErase`/`mapModify`/`mapContains` model
  `get`/`insert`/`remove`/`get_mut`-mutation/`contains_key`.
* a `&mut self` Rust method returning `Result<(), E>` is modelled as a function
  returning the pair of the `Except E Unit` result and the post-state.
* the file system is a store from paths to JSON documents; `fs::write` is an
  overwrite-insert and `File::open` + `serde_json::from_reader` a lookup
  followed by deserialization.
-/

/-- Models `str::to_lowercase` on the character list of a string.  Lean's
`Char.toLower` lowers the ASCII range, which is where the program relies on
lowercasing (the match targets `"low"`, `"medium"`, `"high"`, `"cancel"`,
`"y"`, and the dot test of the loader are all ASCII). -/
def to_lowercase (s : String) : String :=
  ⟨s.data.map Char.toLower⟩

/-- Models `str::contains(char)`: does some character of `s` equal `c`? -/
def contains_char (s : String) (c : Char) : Bool :=
  s.data.any (fun x => x = c)

/-- Calendar date, modelling `chrono::NaiveDate` as the plain
(year, month, day) triple it denotes. -/
structure Date where
  year : Int
  month : Nat
  day : Nat
deriving DecidableEq, Repr

/-- Proleptic-Gregorian leap-year test, as used by `chrono`. -/
def Date.isLeapYear (y : Int) : Bool :=
  y % 4 = 0 && (y % 100 ≠ 0 || y % 400 = 0)

/-- Number of days of month `m` of year `y` (for `1 ≤ m ≤ 12`). -/
def Date.daysInMonth (y : Int) (m : Nat) : Nat :=
  if m = 2 then (if Date.isLeapYear y then 29 else 28)
  else if m = 4 ∨ m = 6 ∨ m = 9 ∨ m = 11 then 30
  else 31

/-- Calendar validity of a (year, month, day) triple: month in range, day in
range for that month accounting for month lengths and leap years, and the year
inside chrono's documented representable range (about ±262000 years). -/
def Date.validYmd (y : Int) (m : Nat) (d : Nat) : Bool :=
  -262143 ≤ y && y ≤ 262142 &&
  1 ≤ m && m ≤ 12 &&
  1 ≤ d && d ≤ Date.daysInMonth y m

/-- Models `NaiveDate::from_ymd_opt`: `some` of the date when the triple is a
valid calendar date, `none` otherwise. -/
def Date.from_ymd_opt (y : Int) (m : Nat) (d : Nat) : Option Date :=
  if Date.validYmd y m d then some ⟨y, m, d⟩ else none

/-- Chronological strict order on dates (`chrono`'s `Ord` on `NaiveDate`):
lexicographic on (year, month, day). -/
def Date.ltb (a b : Date) : Bool :=
  decide (a.year < b.year ∨
    (a.year = b.year ∧ (a.month < b.month ∨
      (a.month = b.month ∧ a.day < b.day))))

/-- Models `Priority` of `src/list_items/enums.rs`. -/
inductive Priority where
  | Low
  | Medium
  | High
  | Invalid
deriving DecidableEq, Repr

/-- Models `Priority::from_str`: case-insensitive match of the input against
"low"/"medium"/"high"; anything else yields `Invalid`. -/
def Priority.from_str (input : String) : Priority :=
  if to_lowercase input = "low" then .Low
  else if to_lowercase input = "medium" then .Medium
  else if to_lowercase input = "high" then .High
  else .Invalid

/-- Modelled from the spec: the variant label of a `Priority`, used where the
repository renders or encodes a priority (the `Display` and serde
implementations for `Priority` are not part of the sources under `src/`; the
spec says the priority is "encoded as its variant label"). -/
def Priority.label : Priority → String
  | .Low => "Low"
  | .Medium => "Medium"
  | .High => "High"
  | .Invalid => "Invalid"

/-- Models `ToDoSelectionError` of `src/list_items/enums.rs`. -/
inductive ToDoSelectionError where
  | ToDoNotFound
  | ToDoAlreadyPresent
deriving DecidableEq, Repr

/-- Models `Item` of `src/list_items/structs.rs`. -/
structure Item where
  name : String
  description : String
  priority : Priority
  creation_date : Date
  due_date : Option Date
  completed : Bool
deriving DecidableEq, Repr

/-- Models `Item::new`.  The optional due date is validated with
`from_ymd_opt`; an invalid triple leaves `due_date` empty (the Rust code only
logs a message).  `today` stands for `Local::now().date_naive()`. -/
def Item.new (name description priority : String)
    (due_date_ymd : Option (Int × Nat × Nat)) (today : Date) : Item :=
  let due_date : Option Date :=
    match due_date_ymd with
    | some ymd => Date.from_ymd_opt ymd.1 ymd.2.1 ymd.2.2
    | none => none
  { name := name
    description := description
    priority := Priority.from_str priority
    creation_date := today
    due_date := due_date
    completed := false }

/-- Models `Item::is_overdue`: true iff a due date is present and lies
strictly before `today`. -/
def Item.is_overdue (it : Item) (today : Date) : Bool :=
  match it.due_date with
  | some due_date => Date.ltb due_date today
  | none => false

/-- Models `Item::is_completed`. -/
def Item.is_completed (it : Item) : Bool :=
  it.completed

/-- Models `Item::update_description`. -/
def Item.update_description (it : Item) (new_description : String) : Item :=
  { it with description := new_description }

/-- Models `Item::update_priority`. -/
def Item.update_priority (it : Item) (new_priority : String) : Item :=
  { it with priority := Priority.from_str new_priority }

/-- Models `Item::update_due_date`: an invalid (year, month, day) triple
leaves the item unchanged (the Rust code only logs a message). -/
def Item.update_due_date (it : Item) (ymd : Int × Nat × Nat) : Item :=
  match Date.from_ymd_opt ymd.1 ymd.2.1 ymd.2.2 with
  | some due_date => { it with due_date := some due_date }
  | none => it

/-- Models `Item::complete_item`. -/
def Item.complete_item (it : Item) : Item :=
  { it with completed := true }

/-- Models `Item::open_item`. -/
def Item.open_item (it : Item) : Item :=
  { it with completed := false }

/-- Models `HashMap::get` on the association-list representation. -/
def mapGet {α : Type} : List (String × α) → String → Option α
  | [], _ => none
  | p :: rest, k => if p.1 = k then some p.2 else mapGet rest k

/-- Models `HashMap::contains_key`. -/
def mapContains {α : Type} (m : List (String × α)) (k : String) : Bool :=
  (mapGet m k).isSome

/-- Models `HashMap::insert`: replace the binding of `k` if present,
otherwise add one. -/
def mapInsert {α : Type} : List (String × α) → String → α → List (String × α)
  | [], k, v => [(k, v)]
  | p :: rest, k, v => if p.1 = k then (k, v) :: rest else p :: mapInsert rest k v

/-- Models `HashMap::remove`: drop the binding of `k` if present. -/
def mapErase {α : Type} : List (String × α) → String → List (String × α)
  | [], _ => []
  | p :: rest, k => if p.1 = k then rest else p :: mapErase rest k

/-- Models mutation through `HashMap::get_mut`: apply `f` to the value bound
to `k`, leave the map unchanged when `k` is absent. -/
def mapModify {α : Type} : List (String × α) → String → (α → α) → List (String × α)
  | [], _, _ => []
  | p :: rest, k, f => if p.1 = k then (p.1, f p.2) :: rest else p :: mapModify rest k f

/-- Models `ToDoList` of `src/list_items/structs.rs`. -/
structure ToDoList where
  name : String
  description : String
  items : List (String × Item)
deriving DecidableEq, Repr

/-- Models `ToDoList::create_to_do_list`: a named, described, empty list. -/
def ToDoList.create_to_do_list (list_name list_description : String) : ToDoList :=
  { name := list_name, description := list_description, items := [] }

/-- Models `ToDoList::list_contains_item`. -/
def ToDoList.list_contains_item (l : ToDoList) (item_name : String) : Bool :=
  mapContains l.items item_name

/-- Models `ToDoList::create_item`: refuse when the name is taken and
`replace` is false, otherwise insert (or overwrite) the freshly constructed
item.  The pair returns the `Result` and the post-state of the list. -/
def ToDoList.create_item (l : ToDoList) (name description priority : String)
    (due_date_ymd : Option (Int × Nat × Nat)) (replace : Bool) (today : Date) :
    Except ToDoSelectionError Unit × ToDoList :=
  if !l.list_contains_item name || replace then
    (Except.ok (),
      { l with items :=
          mapInsert l.items name (Item.new name description priority due_date_ymd today) })
  else
    (Except.error ToDoSelectionError.ToDoAlreadyPresent, l)

/-- Models `ToDoList::get_item_ref`. -/
def ToDoList.get_item_ref (l : ToDoList) (item_name : String) :
    Except ToDoSelectionError Item :=
  if l.list_contains_item item_name then
    match mapGet l.items item_name with
    | some it => Except.ok it
    | none => Except.error ToDoSelectionError.ToDoNotFound
  else
    Except.error ToDoSelectionError.ToDoNotFound

/-- Models `ToDoList::delete_item`. -/
def ToDoList.delete_item (l : ToDoList) (item_name : String) :
    Except ToDoSelectionError Unit × ToDoList :=
  if l.list_contains_item item_name then
    (Except.ok (), { l with items := mapErase l.items item_name })
  else
    (Except.error ToDoSelectionError.ToDoNotFound, l)

/-- Models `ToDoList::update_item_description`. -/
def ToDoList.update_item_description (l : ToDoList) (item_name new_description : String) :
    Except ToDoSelectionError Unit × ToDoList :=
  if mapContains l.items item_name then
    (Except.ok (),
      { l with items := mapModify l.items item_name (fun it => it.update_description new_description) })
  else
    (Except.error ToDoSelectionError.ToDoNotFound, l)

/-- Models `ToDoList::update_item_priority`. -/
def ToDoList.update_item_priority (l : ToDoList) (item_name new_priority : String) :
    Except ToDoSelectionError Unit × ToDoList :=
  if mapContains l.items item_name then
    (Except.ok (),
      { l with items := mapModify l.items item_name (fun it => it.update_priority new_priority) })
  else
    (Except.error ToDoSelectionError.ToDoNotFound, l)

/-- Models `ToDoList::update_item_due_date`. -/
def ToDoList.update_item_due_date (l : ToDoList) (item_name : String)
    (ymd : Int × Nat × Nat) : Except ToDoSelectionError Unit × ToDoList :=
  if mapContains l.items item_name then
    (Except.ok (),
      { l with items := mapModify l.items item_name (fun it => it.update_due_date ymd) })
  else
    (Except.error ToDoSelectionError.ToDoNotFound, l)

/-- Models `ToDoList::close_list_item`. -/
def ToDoList.close_list_item (l : ToDoList) (item_name : String) :
    Except ToDoSelectionError Unit × ToDoList :=
  if mapContains l.items item_name then
    (Except.ok (), { l with items := mapModify l.items item_name Item.complete_item })
  else
    (Except.error ToDoSelectionError.ToDoNotFound, l)

/-- Models `ToDoList::open_list_item`. -/
def ToDoList.open_list_item (l : ToDoList) (item_name : String) :
    Except ToDoSelectionError Unit × ToDoList :=
  if mapContains l.items item_name then
    (Except.ok (), { l with items := mapModify l.items item_name Item.open_item })
  else
    (Except.error ToDoSelectionError.ToDoNotFound, l)

/-- Models `ToDoList::filter_open_items`: the sub-map of non-completed
items. -/
def ToDoList.filter_open_items (l : ToDoList) : List (String × Item) :=
  l.items.filter (fun p => !p.2.is_completed)

/-- Models `ToDoList::filter_overdue_items` (`today` stands for the clock
read inside `Item::is_overdue`): the sub-map of non-completed, overdue
items. -/
def ToDoList.filter_overdue_items (l : ToDoList) (today : Date) : List (String × Item) :=
  l.items.filter (fun p => !p.2.is_completed && p.2.is_overdue today)

/-- Lexicographic order on character lists, modelling `Ord for str`
(`x.0.cmp(y.0)` compares UTF-8 byte sequences, which orders strings exactly by
their code-point sequences). -/
def lexLe : List Char → List Char → Bool
  | [], _ => true
  | _ :: _, [] => false
  | a :: as, b :: bs => if a < b then true else if b < a then false else lexLe as bs

/-- String comparison used by `sort_list`, as `lexLe` on the character
data. -/
def strLe (a b : String) : Bool :=
  lexLe a.data b.data

/-- Models `sort_list` of `src/utils/functions.rs`: collect the map into a
sequence and sort it by key (`sort_by` with the comparator `x.0.cmp(y.0)`).
Rust's `sort_by` is a stable sort; `List.insertionSort` with the matching
`≤`-relation is a stable sort as well, hence produces the same sequence. -/
def sort_list {α : Type} (hash_list : List (String × α)) : List (String × α) :=
  hash_list.insertionSort (fun x y => strLe x.1 y.1)

/-- Models `ToDoList::list_all_items`. -/
def ToDoList.list_all_items (hash_map : List (String × Item)) : List (String × Item) :=
  sort_list hash_map

/-- Structured JSON document, the durable record format produced by
`serde_json`.  The `jdate` leaf abstracts chrono's serde encoding of a
`NaiveDate` as its ISO-8601 string: that encoding is injective and parsing is
its inverse, which the abstract leaf captures directly. -/
inductive Json where
  | jnull : Json
  | jbool : Bool → Json
  | jstr : String → Json
  | jdate : Date → Json
  | jobj : List (String × Json) → Json

/-- Partial projection of a JSON value to a string. -/
def Json.asStr : Json → Option String
  | .jstr s => some s
  | _ => none

/-- Partial projection of a JSON value to a boolean. -/
def Json.asBool : Json → Option Bool
  | .jbool b => some b
  | _ => none

/-- Partial projection of a JSON value to a date. -/
def Json.asDate : Json → Option Date
  | .jdate d => some d
  | _ => none

/-- Partial projection of a JSON value to an object (its field list). -/
def Json.asObj : Json → Option (List (String × Json))
  | .jobj fields => some fields
  | _ => none

/-- Modelled from the spec: serde serialization of a `Priority` (the derive is
not part of the sources under `src/`); a unit enum variant is encoded as its
variant label. -/
def Priority.toJson (p : Priority) : Json :=
  .jstr p.label

/-- Modelled from the spec: serde deserialization of a `Priority`; only the
four variant labels are accepted. -/
def Priority.fromJson : Json → Option Priority
  | .jstr s =>
    if s = "Low" then some .Low
    else if s = "Medium" then some .Medium
    else if s = "High" then some .High
    else if s = "Invalid" then some .Invalid
    else none
  | _ => none

/-- Serde serialization of an `Item` (derived `Serialize`): an object with one
field per struct field, an absent due date encoded as `null`. -/
def Item.toJson (it : Item) : Json :=
  .jobj [("name", .jstr it.name),
         ("description", .jstr it.description),
         ("priority", it.priority.toJson),
         ("creation_date", .jdate it.creation_date),
         ("due_date", match it.due_date with
                      | some d => .jdate d
                      | none => .jnull),
         ("completed", .jbool it.completed)]

/-- Serde deserialization of an `Item` (derived `Deserialize`): every field is
looked up by name; the `Option` field accepts `null` (or an absent field) as
`none`. -/
def Item.fromJson (j : Json) : Option Item := do
  let fields ← j.asObj
  let name ← (mapGet fields "name").bind Json.asStr
  let description ← (mapGet fields "description").bind Json.asStr
  let priority ← (mapGet fields "priority").bind Priority.fromJson
  let creation_date ← (mapGet fields "creation_date").bind Json.asDate
  let due_date ←
    match mapGet fields "due_date" with
    | none => some none
    | some .jnull => some none
    | some (.jdate d) => some (some d)
    | some _ => none
  let completed ← (mapGet fields "completed").bind Json.asBool
  some { name := name, description := description, priority := priority,
         creation_date := creation_date, due_date := due_date,
         completed := completed }

/-- Serde deserialization of the item map: decode each binding in sequence,
failing when any single item fails to decode. -/
def decodeItems : List (String × Json) → Option (List (String × Item))
  | [] => some []
  | p :: rest => do
    let it ← Item.fromJson p.2
    let tail ← decodeItems rest
    some ((p.1, it) :: tail)

/-- Serde serialization of a `ToDoList` (derived `Serialize`): the item map
becomes an object keyed by the item names. -/
def ToDoList.toJson (l : ToDoList) : Json :=
  .jobj [("name", .jstr l.name),
         ("description", .jstr l.description),
         ("items", .jobj (l.items.map (fun p => (p.1, p.2.toJson))))]

/-- Serde deserialization of a `ToDoList` (derived `Deserialize`).  Records
written by the program never carry a duplicate item key, so the map is rebuilt
binding by binding. -/
def ToDoList.fromJson (j : Json) : Option ToDoList := do
  let fields ← j.asObj
  let name ← (mapGet fields "name").bind Json.asStr
  let description ← (mapGet fields "description").bind Json.asStr
  let itemsJson ← (mapGet fields "items").bind Json.asObj
  let items ← decodeItems itemsJson
  some { name := name, description := description, items := items }

/-- File system state: a map from paths to the JSON documents stored there. -/
abbrev FileStore := List (String × Json)

/-- Models `ToDoList::save_to_do_list`: serialize the list and overwrite the
file `./lists/{name}.json`. -/
def ToDoList.save_to_do_list (l : ToDoList) (fs : FileStore) : FileStore :=
  mapInsert fs ("./lists/" ++ l.name ++ ".json") l.toJson

/-- Models `ToDoList::load_to_do_list`: when the lowercased identifier
contains a dot the path is `./lists/{identifier}`, otherwise
`./lists/{identifier}.json`; the file is then opened and deserialized.
`none` models the panic on a missing file or malformed document. -/
def ToDoList.load_to_do_list (list_name : String) (fs : FileStore) : Option ToDoList :=
  let path :=
    if contains_char (to_lowercase list_name) '.' then "./lists/" ++ list_name
    else "./lists/" ++ list_name ++ ".json"
  (mapGet fs path).bind ToDoList.fromJson

/-- Decimal digits of `n`, most significant first (fuel-structured so that it
evaluates by reduction). -/
def natDigitsAux : Nat → Nat → List Char
  | 0, _ => []
  | fuel + 1, n =>
    if n < 10 then [Nat.digitChar n]
    else natDigitsAux fuel (n / 10) ++ [Nat.digitChar (n % 10)]

/-- Decimal rendering of a natural number as a character list. -/
def natDigits (n : Nat) : List Char :=
  natDigitsAux (n + 1) n

/-- Left-pad a character list with zeros up to width `w`. -/
def padZero (w : Nat) (cs : List Char) : List Char :=
  List.replicate (w - cs.length) '0' ++ cs

/-- Models chrono's `Display` for `NaiveDate` (`%Y-%m-%d`): zero-padded
year (4), month (2) and day (2), a sign in front of years outside
0..=9999. -/
def Date.isoString (d : Date) : String :=
  let yearChars :=
    if d.year < 0 then '-' :: padZero 4 (natDigits d.year.natAbs)
    else if d.year ≥ 10000 then '+' :: natDigits d.year.toNat
    else padZero 4 (natDigits d.year.toNat)
  ⟨yearChars ++ ('-' :: padZero 2 (natDigits d.month)) ++ ('-' :: padZero 2 (natDigits d.day))⟩

/-- Models `impl Display for Item`: the tab-separated single-line template of
`src/list_items/structs.rs`, with `Due Date: NA` when no due date is set. -/
def Item.display (it : Item) : String :=
  match it.due_date with
  | some due_date =>
    "Name: " ++ it.name ++ "\tDescription: " ++ it.description ++
    "\tPriority: " ++ it.priority.label ++ "\tCreation Date:" ++
    it.creation_date.isoString ++ "\tDue Date:" ++ due_date.isoString
  | none =>
    "Name: " ++ it.name ++ "\tDescription: " ++ it.description ++
    "\tPriority: " ++ it.priority.label ++ "\tCreation Date:" ++
    it.creation_date.isoString ++ "\tDue Date: NA"

/-- Key/name coherence invariant of a list: every binding of the item map
stores an item under that item's own name. -/
def ToDoList.KeysMatch (l : ToDoList) : Prop :=
  ∀ p ∈ l.items, p.1 = p.2.name

/-- Keys of the item map, in iteration order. -/
def itemKeys (m : List (String × Item)) : List String :=
  m.map Prod.fst

theorem lexLe_total : ∀ as bs : List Char, lexLe as bs = true ∨ lexLe bs as = true := by
  intro as
  induction as with
  | nil => intro bs; left; rfl
  | cons a as ih =>
    intro bs
    cases bs with
    | nil => right; rfl
    | cons b bs =>
      rcases lt_trichotomy a b with h | h | h
      · left; simp [lexLe, h]
      · subst h
        rcases ih bs with h' | h'
        · left; simp [lexLe, lt_irrefl, h']
        · right; simp [lexLe, lt_irrefl, h']
      · right; simp [lexLe, h]

theorem lexLe_trans :
    ∀ as bs cs : List Char, lexLe as bs = true → lexLe bs cs = true → lexLe as cs = true := by
  intro as
  induction as with
  | nil => intro bs cs _ _; rfl
  | cons a as ih =>
    intro bs cs h₁ h₂
    cases bs with
    | nil => simp [lexLe] at h₁
    | cons b bs =>
      cases cs with
      | nil => simp [lexLe] at h₂
      | cons c cs =>
        by_cases hab : a < b
        · by_cases hbc : b < c
          · simp [lexLe, lt_trans hab hbc]
          · by_cases hcb : c < b
            · simp [lexLe, hbc, hcb] at h₂
            · have hbc' : b = c := le_antisymm (not_lt.1 hcb) (not_lt.1 hbc)
              subst hbc'
              simp [lexLe, hab]
        · by_cases hba : b < a
          · simp [lexLe, hab, hba] at h₁
          · have hab' : a = b := le_antisymm (not_lt.1 hba) (not_lt.1 hab)
            subst hab'
            simp only [lexLe, lt_irrefl, if_false] at h₁
            by_cases hac : a < c
            · simp [lexLe, hac]
            · by_cases hca : c < a
              · simp [lexLe, hac, hca] at h₂
              · have hac' : a = c := le_antisymm (not_lt.1 hca) (not_lt.1 hac)
                subst hac'
                simp only [lexLe, lt_irrefl, if_false] at h₂ ⊢
                exact ih bs cs h₁ h₂

theorem lexLe_antisymm :
    ∀ as bs : List Char, lexLe as bs = true → lexLe bs as = true → as = bs := by
  intro as
  induction as with
  | nil =>
    intro bs _ h₂
    cases bs with
    | nil => rfl
    | cons b bs => simp [lexLe] at h₂
  | cons a as ih =>
    intro bs h₁ h₂
    cases bs with
    | nil => simp [lexLe] at h₁
    | cons b bs =>
      by_cases hab : a < b
      · simp [lexLe, hab, asymm hab] at h₂
      · by_cases hba : b < a
        · simp [lexLe, hab, hba] at h₁
        · have hab' : a = b := le_antisymm (not_lt.1 hba) (not_lt.1 hab)
          subst hab'
          simp only [lexLe, lt_irrefl, if_false] at h₁ h₂
          rw [ih bs h₁ h₂]

theorem strLe_total (a b : String) : strLe a b = true ∨ strLe b a = true :=
  lexLe_total a.data b.data

theorem strLe_trans {a b c : String} (h₁ : strLe a b = true) (h₂ : strLe b c = true) :
    strLe a c = true :=
  lexLe_trans a.data b.data c.data h₁ h₂

theorem strLe_antisymm {a b : String} (h₁ : strLe a b = true) (h₂ : strLe b a = true) :
    a = b := by
  cases a; cases b
  exact congrArg String.mk (lexLe_antisymm _ _ h₁ h₂)

theorem mapGet_insert_self {α : Type} (m : List (String × α)) (k : String) (v : α) :
    mapGet (mapInsert m k v) k = some v := by
  induction m with
  | nil => simp [mapInsert, mapGet]
  | cons p rest ih =>
    by_cases h : p.1 = k
    · simp [mapInsert, h, mapGet]
    · simp [mapInsert, h, mapGet, ih]

theorem mem_mapInsert {α : Type} (m : List (String × α)) (k : String) (v : α) :
    ∀ p ∈ mapInsert m k v, p = (k, v) ∨ p ∈ m := by
  induction m with
  | nil => simp [mapInsert]
  | cons q rest ih =>
    intro p hp
    by_cases h : q.1 = k
    · simp only [mapInsert, if_pos h, List.mem_cons] at hp
      rcases hp with hp | hp
      · exact Or.inl hp
      · exact Or.inr (List.mem_cons_of_mem _ hp)
    · simp only [mapInsert, if_neg h, List.mem_cons] at hp
      rcases hp with hp | hp
      · exact Or.inr (hp ▸ List.mem_cons_self _ _)
      · rcases ih p hp with h' | h'
        · exact Or.inl h'
        · exact Or.inr (List.mem_cons_of_mem _ h')

theorem mem_mapErase {α : Type} (m : List (String × α)) (k : String) :
    ∀ p ∈ mapErase m k, p ∈ m := by
  induction m with
  | nil => simp [mapErase]
  | cons q rest ih =>
    intro p hp
    by_cases h : q.1 = k
    · simp only [mapErase, if_pos h] at hp
      exact List.mem_cons_of_mem _ hp
    · simp only [mapErase, if_neg h, List.mem_cons] at hp
      rcases hp with hp | hp
      · exact hp ▸ List.mem_cons_self _ _
      · exact List.mem_cons_of_mem _ (ih p hp)

theorem mem_mapModify {α : Type} (m : List (String × α)) (k : String) (f : α → α) :
    ∀ p ∈ mapModify m k f, p ∈ m ∨ ∃ q ∈ m, p = (q.1, f q.2) := by
  induction m with
  | nil => simp [mapModify]
  | cons q rest ih =>
    intro p hp
    by_cases h : q.1 = k
    · simp only [mapModify, if_pos h, List.mem_cons] at hp
      rcases hp with hp | hp
      · exact Or.inr ⟨q, List.mem_cons_self _ _, hp⟩
      · exact Or.inl (List.mem_cons_of_mem _ hp)
    · simp only [mapModify, if_neg h, List.mem_cons] at hp
      rcases hp with hp | hp
      · exact Or.inl (hp ▸ List.mem_cons_self _ _)
      · rcases ih p hp with h' | ⟨r, hr, hp'⟩
        · exact Or.inl (List.mem_cons_of_mem _ h')
        · exact Or.inr ⟨r, List.mem_cons_of_mem _ hr, hp'⟩

theorem mapModify_congr_id {α : Type} (m : List (String × α)) (k : String) (f : α → α)
    (hf : ∀ x, f x = x) : mapModify m k f = m := by
  induction m with
  | nil => rfl
  | cons q rest ih =>
    by_cases h : q.1 = k
    · simp only [mapModify, if_pos h, hf]
    · simp [mapModify, h, ih]

theorem priorityJson_roundtrip (p : Priority) : Priority.fromJson p.toJson = some p := by
  cases p <;> rfl

theorem itemJson_roundtrip (it : Item) : Item.fromJson it.toJson = some it := by
  obtain ⟨n, d, p, cd, dd, c⟩ := it
  cases p <;> cases dd <;> rfl

theorem decodeItems_roundtrip (items : List (String × Item)) :
    decodeItems (items.map (fun p => (p.1, p.2.toJson))) = some items := by
  induction items with
  | nil => rfl
  | cons q rest ih =>
    simp [decodeItems, itemJson_roundtrip, ih]

theorem toDoListJson_roundtrip (l : ToDoList) : ToDoList.fromJson l.toJson = some l := by
  obtain ⟨n, d, items⟩ := l
  simp [ToDoList.toJson, ToDoList.fromJson, Json.asObj, Json.asStr, mapGet,
    decodeItems_roundtrip]

theorem natDigitsAux_mem_digit :
    ∀ fuel n c, c ∈ natDigitsAux fuel n → ∃ m, m < 10 ∧ c = Nat.digitChar m := by
  intro fuel
  induction fuel with
  | zero => intro n c hc; simp [natDigitsAux] at hc
  | succ fuel ih =>
    intro n c hc
    by_cases h : n < 10
    · simp only [natDigitsAux, if_pos h, List.mem_singleton] at hc
      exact ⟨n, h, hc⟩
    · simp only [natDigitsAux, if_neg h, List.mem_append, List.mem_singleton] at hc
      rcases hc with hc | hc
      · exact ih _ _ hc
      · exact ⟨n % 10, Nat.mod_lt _ (by norm_num), hc⟩

theorem digitChar_ne_newline : ∀ m, m < 10 → Nat.digitChar m ≠ '\n' := by decide

theorem natDigits_ne_newline (n : Nat) : '\n' ∉ natDigits n := by
  intro h
  obtain ⟨m, hm, hc⟩ := natDigitsAux_mem_digit _ _ _ h
  exact digitChar_ne_newline m hm hc.symm

theorem mem_padZero {w : Nat} {cs : List Char} {c : Char} (h : c ∈ padZero w cs) :
    c = '0' ∨ c ∈ cs := by
  simp only [padZero, List.mem_append] at h
  rcases h with h | h
  · exact Or.inl (List.eq_of_mem_replicate h)
  · exact Or.inr h

theorem padZero_natDigits_ne_newline (w n : Nat) : '\n' ∉ padZero w (natDigits n) := by
  intro h
  rcases mem_padZero h with h | h
  · exact absurd h (by decide)
  · exact natDigits_ne_newline n h

theorem isoString_ne_newline (d : Date) : '\n' ∉ (Date.isoString d).data := by
  intro h
  simp only [Date.isoString] at h
  rcases lt_or_le d.year 0 with hy | hy
  · simp only [if_pos hy, List.mem_append, List.mem_cons] at h
    rcases h with ((h | h) | (h | h)) | (h | h)
    · exact absurd h (by decide)
    · exact padZero_natDigits_ne_newline _ _ h
    · exact absurd h (by decide)
    · exact padZero_natDigits_ne_newline _ _ h
    · exact absurd h (by decide)
    · exact padZero_natDigits_ne_newline _ _ h
  · by_cases hy' : d.year ≥ 10000
    · simp only [if_neg (not_lt.2 hy), if_pos hy', List.mem_append, List.mem_cons] at h
      rcases h with ((h | h) | (h | h)) | (h | h)
      · exact absurd h (by decide)
      · exact natDigits_ne_newline _ h
      · exact absurd h (by decide)
      · exact padZero_natDigits_ne_newline _ _ h
      · exact absurd h (by decide)
      · exact padZero_natDigits_ne_newline _ _ h
    · simp only [if_neg (not_lt.2 hy), if_neg hy', List.mem_append, List.mem_cons] at h
      rcases h with (h | (h | h)) | (h | h)
      · exact padZero_natDigits_ne_newline _ _ h
      · exact absurd h (by decide)
      · exact padZero_natDigits_ne_newline _ _ h
      · exact absurd h (by decide)
      · exact padZero_natDigits_ne_newline _ _ h

theorem label_ne_newline (p : Priority) : '\n' ∉ (Priority.label p).data := by
  cases p <;> decide

theorem contains_dot_of_append_json (name : String) :
    contains_char (to_lowercase (name ++ ".json")) '.' = true := by
  have hjson : ((".json".data.map Char.toLower).any (fun x => decide (x = '.'))) = true := by
    decide
  simp [contains_char, to_lowercase, String.data_append, List.any_append, hjson]

/-- C8: priority parsing is a total function on strings: it matches
case-insensitively against "low"/"medium"/"high" and returns the matching
variant, and every other input (including the empty string) yields
`Invalid`. -/
theorem claim_C8_priority_parse_total (s : String) :
    (Priority.from_str s = .Low ↔ to_lowercase s = "low") ∧
    (Priority.from_str s = .Medium ↔ to_lowercase s = "medium") ∧
    (Priority.from_str s = .High ↔ to_lowercase s = "high") ∧
    (Priority.from_str s = .Invalid ↔
      ¬(to_lowercase s = "low" ∨ to_lowercase s = "medium" ∨ to_lowercase s = "high")) ∧
    Priority.from_str "" = .Invalid := by
  refine ⟨?_, ?_, ?_, ?_, by decide⟩ <;>
  · unfold Priority.from_str
    by_cases h1 : to_lowercase s = "low" <;> by_cases h2 : to_lowercase s = "medium" <;>
      by_cases h3 : to_lowercase s = "high" <;> simp_all

/-- C2: `create_item` fails with `ToDoAlreadyPresent` and leaves the list
unchanged when the name is taken and `replace` is false; in every other case
it succeeds and `get_item_ref` afterwards returns exactly the item constructed
from this call's arguments. -/
theorem claim_C2_create_item (l : ToDoList) (name description priority : String)
    (ymd : Option (Int × Nat × Nat)) (replace : Bool) (today : Date) :
    (l.list_contains_item name = true → replace = false →
      l.create_item name description priority ymd replace today =
        (Except.error ToDoSelectionError.ToDoAlreadyPresent, l)) ∧
    (l.list_contains_item name = false ∨ replace = true →
      (l.create_item name description priority ymd replace today).1 = Except.ok () ∧
      ((l.create_item name description priority ymd replace today).2).get_item_ref name =
        Except.ok (Item.new name description priority ymd today)) := by
  constructor
  · intro hc hr
    simp [ToDoList.create_item, hc, hr]
  · intro h
    have hguard : (!l.list_contains_item name || replace) = true := by
      rcases h with h | h <;> simp [h]
    have hif : l.create_item name description priority ymd replace today =
        (Except.ok (),
          { l with items :=
              mapInsert l.items name (Item.new name description priority ymd today) }) := by
      unfold ToDoList.create_item
      rw [if_pos hguard]
    have hget := mapGet_insert_self l.items name (Item.new name description priority ymd today)
    rw [hif]
    exact ⟨rfl, by simp [ToDoList.get_item_ref, ToDoList.list_contains_item, mapContains, hget]⟩

/-- C3: each list-level operation that targets an item by name fails with
`ToDoNotFound` exactly when no item with that name is present, and a call that
fails this way leaves the list unmodified. -/
theorem claim_C3_item_not_found (l : ToDoList) (name new_description new_priority : String)
    (ymd : Int × Nat × Nat) :
    (l.get_item_ref name = Except.error ToDoSelectionError.ToDoNotFound ↔
      l.list_contains_item name = false) ∧
    ((l.delete_item name).1 = Except.error ToDoSelectionError.ToDoNotFound ↔
      l.list_contains_item name = false) ∧
    ((l.delete_item name).1 = Except.error ToDoSelectionError.ToDoNotFound →
      (l.delete_item name).2 = l) ∧
    ((l.update_item_description name new_description).1 =
        Except.error ToDoSelectionError.ToDoNotFound ↔ l.list_contains_item name = false) ∧
    ((l.update_item_description name new_description).1 =
        Except.error ToDoSelectionError.ToDoNotFound →
      (l.update_item_description name new_description).2 = l) ∧
    ((l.update_item_priority name new_priority).1 =
        Except.error ToDoSelectionError.ToDoNotFound ↔ l.list_contains_item name = false) ∧
    ((l.update_item_priority name new_priority).1 =
        Except.error ToDoSelectionError.ToDoNotFound →
      (l.update_item_priority name new_priority).2 = l) ∧
    ((l.update_item_due_date name ymd).1 = Except.error ToDoSelectionError.ToDoNotFound ↔
      l.list_contains_item name = false) ∧
    ((l.update_item_due_date name ymd).1 = Except.error ToDoSelectionError.ToDoNotFound →
      (l.update_item_due_date name ymd).2 = l) ∧
    ((l.close_list_item name).1 = Except.error ToDoSelectionError.ToDoNotFound ↔
      l.list_contains_item name = false) ∧
    ((l.close_list_item name).1 = Except.error ToDoSelectionError.ToDoNotFound →
      (l.close_list_item name).2 = l) ∧
    ((l.open_list_item name).1 = Except.error ToDoSelectionError.ToDoNotFound ↔
      l.list_contains_item name = false) ∧
    ((l.open_list_item name).1 = Except.error ToDoSelectionError.ToDoNotFound →
      (l.open_list_item name).2 = l) := by
  cases hc : mapContains l.items name
  · simp [ToDoList.get_item_ref, ToDoList.delete_item, ToDoList.update_item_description,
      ToDoList.update_item_priority, ToDoList.update_item_due_date, ToDoList.close_list_item,
      ToDoList.open_list_item, ToDoList.list_contains_item, hc]
  · obtain ⟨it, hit⟩ := Option.isSome_iff_exists.1 hc
    simp [ToDoList.get_item_ref, ToDoList.delete_item, ToDoList.update_item_description,
      ToDoList.update_item_priority, ToDoList.update_item_due_date, ToDoList.close_list_item,
      ToDoList.open_list_item, ToDoList.list_contains_item, mapContains, hit]

/-- C4: a (year, month, day) triple that is not a valid calendar date still
lets item construction succeed with an empty due date and all other fields set
as usual, and a due-date update with such a triple succeeds at the call
boundary while changing nothing. -/
theorem claim_C4_invalid_date (y : Int) (m d : Nat) (name description priority : String)
    (today : Date) (it : Item) (l : ToDoList) (item_name : String)
    (h : Date.validYmd y m d = false) :
    Item.new name description priority (some (y, m, d)) today =
      { name := name, description := description, priority := Priority.from_str priority,
        creation_date := today, due_date := none, completed := false } ∧
    it.update_due_date (y, m, d) = it ∧
    (l.list_contains_item item_name = true →
      l.update_item_due_date item_name (y, m, d) = (Except.ok (), l)) := by
  have hnone : Date.from_ymd_opt y m d = none := by
    simp [Date.from_ymd_opt, h]
  refine ⟨?_, ?_, ?_⟩
  · simp [Item.new, hnone]
  · simp [Item.update_due_date, hnone]
  · intro hcontains
    have hid : ∀ x : Item, x.update_due_date (y, m, d) = x := fun x => by
      simp [Item.update_due_date, hnone]
    have hmod := mapModify_congr_id l.items item_name
      (fun x => x.update_due_date (y, m, d)) hid
    simp only [ToDoList.list_contains_item] at hcontains
    simp [ToDoList.update_item_due_date, hcontains, hmod]

/-- C5: `is_overdue` holds exactly when a due date is present and strictly
earlier than the current date (never for an item without a due date, and
independently of completion), `filter_overdue_items` keeps exactly the open
overdue items, `filter_open_items` keeps exactly the open items, and a
completed item never appears among the overdue ones. -/
theorem claim_C5_overdue_and_filters (it : Item) (today : Date) (b : Bool)
    (l : ToDoList) (k : String) (item : Item) :
    (it.is_overdue today = true ↔
      ∃ dd, it.due_date = some dd ∧ Date.ltb dd today = true) ∧
    (it.due_date = none → it.is_overdue today = false) ∧
    ({ it with completed := b } : Item).is_overdue today = it.is_overdue today ∧
    ((k, item) ∈ l.filter_overdue_items today ↔
      (k, item) ∈ l.items ∧ item.completed = false ∧ item.is_overdue today = true) ∧
    ((k, item) ∈ l.filter_open_items ↔ (k, item) ∈ l.items ∧ item.completed = false) ∧
    (item.completed = true → (k, item) ∉ l.filter_overdue_items today) := by
  refine ⟨?_, ?_, ?_, ?_, ?_, ?_⟩
  · cases hdd : it.due_date <;> simp [Item.is_overdue, hdd]
  · intro h; simp [Item.is_overdue, h]
  · cases hdd : it.due_date <;> simp [Item.is_overdue, hdd]
  · simp [ToDoList.filter_overdue_items, List.mem_filter, Item.is_completed, and_assoc]
  · simp [ToDoList.filter_open_items, List.mem_filter, Item.is_completed]
  · intro h
    simp [ToDoList.filter_overdue_items, List.mem_filter, Item.is_completed, h]

theorem update_due_date_preserves_name (x : Item) (t : Int × Nat × Nat) :
    (x.update_due_date t).name = x.name := by
  unfold Item.update_due_date
  cases Date.from_ymd_opt t.1 t.2.1 t.2.2 <;> rfl

theorem keysMatch_mapModify {items : List (String × Item)} {k : String} {f : Item → Item}
    (hkm : ∀ p ∈ items, p.1 = p.2.name) (hf : ∀ x, (f x).name = x.name) :
    ∀ p ∈ mapModify items k f, p.1 = p.2.name := by
  intro p hp
  rcases mem_mapModify items k f p hp with h | ⟨q, hq, rfl⟩
  · exact hkm p h
  · simpa [hf] using hkm q hq

/-- C10: every list reachable through the public API stores each item under a
key equal to the item's own `name` field: the empty list satisfies this,
`create_item` establishes it for the inserted entry, and every mutating
operation preserves it. -/
theorem claim_C10_key_name_invariant
    (n d : String) (l : ToDoList) (name description priority : String)
    (ymd : Option (Int × Nat × Nat)) (replace : Bool) (today : Date)
    (item_name new_description new_priority : String) (ymd2 : Int × Nat × Nat) :
    (ToDoList.create_to_do_list n d).KeysMatch ∧
    (l.KeysMatch →
      ((l.create_item name description priority ymd replace today).2).KeysMatch) ∧
    (l.KeysMatch → ((l.delete_item item_name).2).KeysMatch) ∧
    (l.KeysMatch → ((l.update_item_description item_name new_description).2).KeysMatch) ∧
    (l.KeysMatch → ((l.update_item_priority item_name new_priority).2).KeysMatch) ∧
    (l.KeysMatch → ((l.update_item_due_date item_name ymd2).2).KeysMatch) ∧
    (l.KeysMatch → ((l.close_list_item item_name).2).KeysMatch) ∧
    (l.KeysMatch → ((l.open_list_item item_name).2).KeysMatch) := by
  refine ⟨?_, ?_, ?_, ?_, ?_, ?_, ?_, ?_⟩
  · intro p hp
    simp [ToDoList.create_to_do_list] at hp
  · intro hkm
    unfold ToDoList.create_item
    by_cases hguard : (!l.list_contains_item name || replace) = true
    · rw [if_pos hguard]
      intro p hp
      rcases mem_mapInsert l.items name (Item.new name description priority ymd today) p hp with
        h | h
      · subst h; rfl
      · exact hkm p h
    · rw [if_neg hguard]
      exact hkm
  · intro hkm
    unfold ToDoList.delete_item
    by_cases hc : l.list_contains_item item_name = true
    · rw [if_pos hc]
      intro p hp
      exact hkm p (mem_mapErase l.items item_name p hp)
    · rw [if_neg hc]
      exact hkm
  · intro hkm
    unfold ToDoList.update_item_description
    by_cases hc : mapContains l.items item_name = true
    · rw [if_pos hc]
      exact keysMatch_mapModify hkm (fun x => rfl)
    · rw [if_neg hc]
      exact hkm
  · intro hkm
    unfold ToDoList.update_item_priority
    by_cases hc : mapContains l.items item_name = true
    · rw [if_pos hc]
      exact keysMatch_mapModify hkm (fun x => rfl)
    · rw [if_neg hc]
      exact hkm
  · intro hkm
    unfold ToDoList.update_item_due_date
    by_cases hc : mapContains l.items item_name = true
    · rw [if_pos hc]
      exact keysMatch_mapModify hkm (fun x => update_due_date_preserves_name x ymd2)
    · rw [if_neg hc]
      exact hkm
  · intro hkm
    unfold ToDoList.close_list_item
    by_cases hc : mapContains l.items item_name = true
    · rw [if_pos hc]
      exact keysMatch_mapModify hkm (fun x => rfl)
    · rw [if_neg hc]
      exact hkm
  · intro hkm
    unfold ToDoList.open_list_item
    by_cases hc : mapContains l.items item_name = true
    · rw [if_pos hc]
      exact keysMatch_mapModify hkm (fun x => rfl)
    · rw [if_neg hc]
      exact hkm

/-- C7: `list_all_items` returns exactly the map's (name, item) pairs, sorted
ascending lexicographically by name; for a duplicate-free mapping the result
is independent of the insertion order, and three items named "d", "b", "a"
come out in the name order ["a", "b", "d"]. -/
theorem claim_C7_ordered_view (m m2 : List (String × Item)) (it1 it2 it3 : Item) :
    (ToDoList.list_all_items m).Perm m ∧
    List.Pairwise (fun a b : String × Item => strLe a.1 b.1 = true)
      (ToDoList.list_all_items m) ∧
    (m.Perm m2 → (itemKeys m).Nodup →
      ToDoList.list_all_items m = ToDoList.list_all_items m2) ∧
    (ToDoList.list_all_items [("d", it1), ("b", it2), ("a", it3)]).map Prod.fst =
      ["a", "b", "d"] := by
  haveI htotal : IsTotal (String × Item) (fun a b : String × Item => strLe a.1 b.1 = true) :=
    ⟨fun a b => strLe_total a.1 b.1⟩
  haveI htrans : IsTrans (String × Item) (fun a b : String × Item => strLe a.1 b.1 = true) :=
    ⟨fun _ _ _ hab hbc => strLe_trans hab hbc⟩
  have hperm : ∀ ms : List (String × Item), (ToDoList.list_all_items ms).Perm ms :=
    fun ms => List.perm_insertionSort _ ms
  have hsorted : ∀ ms : List (String × Item),
      List.Pairwise (fun a b : String × Item => strLe a.1 b.1 = true)
        (ToDoList.list_all_items ms) :=
    fun ms => List.sorted_insertionSort _ ms
  refine ⟨hperm m, hsorted m, ?_, rfl⟩
  intro hmm hnd
  haveI hanti : IsAntisymm (String × Item)
      (fun a b : String × Item => strLe a.1 b.1 = true ∧ a.1 ≠ b.1) :=
    ⟨fun a b h₁ h₂ => absurd (strLe_antisymm h₁.1 h₂.1) h₁.2⟩
  have hpairNe : ∀ ms : List (String × Item), (itemKeys ms).Nodup →
      List.Pairwise (fun a b : String × Item => a.1 ≠ b.1) (ToDoList.list_all_items ms) := by
    intro ms hms
    have hkeys : (itemKeys (ToDoList.list_all_items ms)).Nodup :=
      (((hperm ms).map Prod.fst).nodup_iff).2 hms
    exact List.pairwise_map.1 hkeys
  have hnd2 : (itemKeys m2).Nodup := ((hmm.map Prod.fst).nodup_iff).1 hnd
  have hs1 : List.Pairwise
      (fun a b : String × Item => strLe a.1 b.1 = true ∧ a.1 ≠ b.1)
      (ToDoList.list_all_items m) :=
    (hsorted m).and (hpairNe m hnd)
  have hs2 : List.Pairwise
      (fun a b : String × Item => strLe a.1 b.1 = true ∧ a.1 ≠ b.1)
      (ToDoList.list_all_items m2) :=
    (hsorted m2).and (hpairNe m2 hnd2)
  exact List.eq_of_perm_of_sorted (((hperm m).trans hmm).trans (hperm m2).symm) hs1 hs2

/-- C1 (amended): for every to-do list whose name contains no dot, saving and
then loading under the list's own name reconstructs the list exactly (name,
description, and every field of every item). -/
theorem claim_C1_save_load_roundtrip (l : ToDoList) (fs : FileStore)
    (h : contains_char (to_lowercase l.name) '.' = false) :
    ToDoList.load_to_do_list l.name (l.save_to_do_list fs) = some l := by
  unfold ToDoList.load_to_do_list ToDoList.save_to_do_list
  rw [if_neg (by simp [h])]
  show (mapGet (mapInsert fs ("./lists/" ++ l.name ++ ".json") l.toJson)
    ("./lists/" ++ l.name ++ ".json")).bind ToDoList.fromJson = some l
  rw [mapGet_insert_self]
  simp [toDoListJson_roundtrip]

/-- C1 (counterexample): a list whose name contains a dot is saved to
`./lists/v1.2.json` but looked up at `./lists/v1.2`, so loading it back by its
own name fails instead of reproducing the list. -/
theorem claim_C1_counterexample :
    ToDoList.load_to_do_list "v1.2"
      (ToDoList.save_to_do_list { name := "v1.2", description := "dotted", items := [] } []) =
      none := by
  decide

/-- C6 (amended): for every identifier without a dot, the loader resolves the
identifier and the identifier extended with ".json" to the same stored
record. -/
theorem claim_C6_extension_resolution (name : String) (fs : FileStore)
    (h : contains_char (to_lowercase name) '.' = false) :
    ToDoList.load_to_do_list name fs = ToDoList.load_to_do_list (name ++ ".json") fs := by
  unfold ToDoList.load_to_do_list
  rw [if_neg (by simp [h]), if_pos (contains_dot_of_append_json name),
    ← String.append_assoc]

/-- C6 (counterexample): for the dotted list name "v1.2" the loader reads
different records for the identifier with and without the extension: the
stored record is found under "v1.2.json" but not under "v1.2". -/
theorem claim_C6_counterexample :
    ToDoList.load_to_do_list "v1.2"
        [("./lists/v1.2.json",
          ToDoList.toJson { name := "v1.2", description := "", items := [] })] ≠
      ToDoList.load_to_do_list "v1.2.json"
        [("./lists/v1.2.json",
          ToDoList.toJson { name := "v1.2", description := "", items := [] })] := by
  decide

/-- C9 (counterexample): two items that differ only in their completion state
render to the same display line, so the display form does not render the
completion state. -/
theorem claim_C9_counterexample :
    ({ name := "t", description := "d", priority := Priority.Low,
       creation_date := { year := 2024, month := 1, day := 1 }, due_date := none,
       completed := false } : Item).display =
      ({ name := "t", description := "d", priority := Priority.Low,
         creation_date := { year := 2024, month := 1, day := 1 }, due_date := none,
         completed := true } : Item).display ∧
    ({ name := "t", description := "d", priority := Priority.Low,
       creation_date := { year := 2024, month := 1, day := 1 }, due_date := none,
       completed := false } : Item).completed ≠
      ({ name := "t", description := "d", priority := Priority.Low,
         creation_date := { year := 2024, month := 1, day := 1 }, due_date := none,
         completed := true } : Item).completed := by
  exact ⟨rfl, by decide⟩

/-- C9 (amended): an item's display form is a single line rendering its name,
description, priority, creation date and due date — the due date shown as
"NA" when absent — while the completion state is not rendered. -/
theorem claim_C9_display_form (it : Item) :
    (∃ s t, s ++ it.name.data ++ t = it.display.data) ∧
    (∃ s t, s ++ it.description.data ++ t = it.display.data) ∧
    (∃ s t, s ++ (it.priority.label).data ++ t = it.display.data) ∧
    (∃ s t, s ++ (it.creation_date.isoString).data ++ t = it.display.data) ∧
    (it.due_date = none → ∃ s, s ++ "\tDue Date: NA".data = it.display.data) ∧
    (∀ dd, it.due_date = some dd →
      ∃ s, s ++ ("\tDue Date:" ++ dd.isoString).data = it.display.data) ∧
    (∀ b, ({ it with completed := b } : Item).display = it.display) ∧
    ('\n' ∉ it.name.data → '\n' ∉ it.description.data → '\n' ∉ it.display.data) := by
  rcases hdd : it.due_date with _ | dd
  · refine ⟨⟨"Name: ".data,
      ("\tDescription: " ++ it.description ++ "\tPriority: " ++ it.priority.label ++
        "\tCreation Date:" ++ it.creation_date.isoString ++ "\tDue Date: NA").data, ?_⟩,
      ⟨("Name: " ++ it.name ++ "\tDescription: ").data,
        ("\tPriority: " ++ it.priority.label ++ "\tCreation Date:" ++
          it.creation_date.isoString ++ "\tDue Date: NA").data, ?_⟩,
      ⟨("Name: " ++ it.name ++ "\tDescription: " ++ it.description ++ "\tPriority: ").data,
        ("\tCreation Date:" ++ it.creation_date.isoString ++ "\tDue Date: NA").data, ?_⟩,
      ⟨("Name: " ++ it.name ++ "\tDescription: " ++ it.description ++ "\tPriority: " ++
          it.priority.label ++ "\tCreation Date:").data, ("\tDue Date: NA").data, ?_⟩,
      fun _ => ⟨("Name: " ++ it.name ++ "\tDescription: " ++ it.description ++
        "\tPriority: " ++ it.priority.label ++ "\tCreation Date:" ++
        it.creation_date.isoString).data, ?_⟩,
      fun dd hsome => absurd hsome (by simp), fun b => ?_, ?_⟩
    · simp [Item.display, hdd, String.data_append, List.append_assoc]
    · simp [Item.display, hdd, String.data_append, List.append_assoc]
    · simp [Item.display, hdd, String.data_append, List.append_assoc]
    · simp [Item.display, hdd, String.data_append, List.append_assoc]
    · simp [Item.display, hdd, String.data_append, List.append_assoc]
    · simp [Item.display, hdd]
    · intro hn hd hmem
      simp only [Item.display, hdd, String.data_append, List.append_assoc,
        List.mem_append] at hmem
      rcases hmem with h | h | h | h | h | h | h | h | h
      · exact absurd h (by decide)
      · exact hn h
      · exact absurd h (by decide)
      · exact hd h
      · exact absurd h (by decide)
      · exact label_ne_newline it.priority h
      · exact absurd h (by decide)
      · exact isoString_ne_newline it.creation_date h
      · exact absurd h (by decide)
  · refine ⟨⟨"Name: ".data,
      ("\tDescription: " ++ it.description ++ "\tPriority: " ++ it.priority.label ++
        "\tCreation Date:" ++ it.creation_date.isoString ++ "\tDue Date:" ++
        dd.isoString).data, ?_⟩,
      ⟨("Name: " ++ it.name ++ "\tDescription: ").data,
        ("\tPriority: " ++ it.priority.label ++ "\tCreation Date:" ++
          it.creation_date.isoString ++ "\tDue Date:" ++ dd.isoString).data, ?_⟩,
      ⟨("Name: " ++ it.name ++ "\tDescription: " ++ it.description ++ "\tPriority: ").data,
        ("\tCreation Date:" ++ it.creation_date.isoString ++ "\tDue Date:" ++
          dd.isoString).data, ?_⟩,
      ⟨("Name: " ++ it.name ++ "\tDescription: " ++ it.description ++ "\tPriority: " ++
          it.priority.label ++ "\tCreation Date:").data,
        ("\tDue Date:" ++ dd.isoString).data, ?_⟩,
      fun hnone => absurd hnone (by simp),
      fun dd2 hsome => ?_, fun b => ?_, ?_⟩
    · simp [Item.display, hdd, String.data_append, List.append_assoc]
    · simp [Item.display, hdd, String.data_append, List.append_assoc]
    · simp [Item.display, hdd, String.data_append, List.append_assoc]
    · simp [Item.display, hdd, String.data_append, List.append_assoc]
    · have hdd2 : dd2 = dd := (Option.some_inj.mp hsome).symm
      subst hdd2
      exact ⟨("Name: " ++ it.name ++ "\tDescription: " ++ it.description ++
        "\tPriority: " ++ it.priority.label ++ "\tCreation Date:" ++
        it.creation_date.isoString).data,
        by simp [Item.display, hdd, String.data_append, List.append_assoc]⟩
    · simp [Item.display, hdd]
    · intro hn hd hmem
      simp only [Item.display, hdd, String.data_append, List.append_assoc,
        List.mem_append] at hmem
      rcases hmem with h | h | h | h | h | h | h | h | h | h
      · exact absurd h (by decide)
      · exact hn h
      · exact absurd h (by decide)
      · exact hd h
      · exact absurd h (by decide)
      · exact label_ne_newline it.priority h
      · exact absurd h (by decide)
      · exact isoString_ne_newline it.creation_date h
      · exact absurd h (by decide)
      · exact isoString_ne_newline dd h

theorem claim_C1_save_load_roundtrip_witness :
    ToDoList.load_to_do_list "todo"
      (ToDoList.save_to_do_list { name := "todo", description := "d", items := [] } []) =
      some { name := "todo", description := "d", items := [] } :=
  claim_C1_save_load_roundtrip { name := "todo", description := "d", items := [] } []
    (by decide)

theorem claim_C2_create_item_witness :
    ToDoList.create_item
        { name := "L", description := "D",
          items := [("a", Item.new "a" "x" "low" none ⟨2024, 1, 1⟩)] }
        "a" "y" "high" none false ⟨2024, 1, 2⟩ =
      (Except.error ToDoSelectionError.ToDoAlreadyPresent,
        { name := "L", description := "D",
          items := [("a", Item.new "a" "x" "low" none ⟨2024, 1, 1⟩)] }) :=
  (claim_C2_create_item
      { name := "L", description := "D",
        items := [("a", Item.new "a" "x" "low" none ⟨2024, 1, 1⟩)] }
      "a" "y" "high" none false ⟨2024, 1, 2⟩).1 (by decide) rfl

theorem claim_C3_item_not_found_witness :
    ((ToDoList.create_to_do_list "L" "D").delete_item "x").1 =
      Except.error ToDoSelectionError.ToDoNotFound :=
  ((claim_C3_item_not_found (ToDoList.create_to_do_list "L" "D") "x" "nd" "np"
      (2024, 1, 1)).2.1).mpr (by decide)

theorem claim_C4_invalid_date_witness :
    Item.new "t" "d" "low" (some (2023, 4, 31)) ⟨2024, 1, 1⟩ =
      { name := "t", description := "d", priority := Priority.from_str "low",
        creation_date := ⟨2024, 1, 1⟩, due_date := none, completed := false } :=
  (claim_C4_invalid_date 2023 4 31 "t" "d" "low" ⟨2024, 1, 1⟩
      (Item.new "z" "z" "low" none ⟨2024, 1, 1⟩) (ToDoList.create_to_do_list "L" "D") "x"
      (by decide)).1

theorem claim_C5_overdue_and_filters_witness :
    (Item.new "t" "d" "low" none ⟨2024, 1, 1⟩).is_overdue ⟨2024, 1, 1⟩ = false :=
  (claim_C5_overdue_and_filters (Item.new "t" "d" "low" none ⟨2024, 1, 1⟩) ⟨2024, 1, 1⟩
      false (ToDoList.create_to_do_list "L" "D") "k"
      (Item.new "t" "d" "low" none ⟨2024, 1, 1⟩)).2.1 rfl

theorem claim_C6_extension_resolution_witness :
    ToDoList.load_to_do_list "todo" [] = ToDoList.load_to_do_list "todo.json" [] :=
  claim_C6_extension_resolution "todo" [] (by decide)

theorem claim_C7_ordered_view_witness :
    ToDoList.list_all_items
        [("b", Item.new "b" "d" "low" none ⟨2024, 1, 1⟩),
         ("a", Item.new "a" "d" "low" none ⟨2024, 1, 1⟩)] =
      ToDoList.list_all_items
        [("a", Item.new "a" "d" "low" none ⟨2024, 1, 1⟩),
         ("b", Item.new "b" "d" "low" none ⟨2024, 1, 1⟩)] :=
  (claim_C7_ordered_view
      [("b", Item.new "b" "d" "low" none ⟨2024, 1, 1⟩),
       ("a", Item.new "a" "d" "low" none ⟨2024, 1, 1⟩)]
      [("a", Item.new "a" "d" "low" none ⟨2024, 1, 1⟩),
       ("b", Item.new "b" "d" "low" none ⟨2024, 1, 1⟩)]
      (Item.new "a" "d" "low" none ⟨2024, 1, 1⟩)
      (Item.new "a" "d" "low" none ⟨2024, 1, 1⟩)
      (Item.new "a" "d" "low" none ⟨2024, 1, 1⟩)).2.2.1 (by decide) (by decide)

theorem claim_C9_display_form_witness :
    '\n' ∉ ((Item.new "t" "d" "low" none ⟨2024, 1, 1⟩).display).data :=
  (claim_C9_display_form
      (Item.new "t" "d" "low" none ⟨2024, 1, 1⟩)).2.2.2.2.2.2.2 (by decide) (by decide)

theorem claim_C10_key_name_invariant_witness :
    (((ToDoList.create_to_do_list "L" "D").create_item "a" "d" "low" none false
        ⟨2024, 1, 1⟩).2).KeysMatch :=
  (claim_C10_key_name_invariant "L" "D" (ToDoList.create_to_do_list "L" "D")
      "a" "d" "low" none false ⟨2024, 1, 1⟩ "x" "nd" "np" (2024, 1, 1)).2.1
    (by simp [ToDoList.KeysMatch, ToDoList.create_to_do_list])
